import Mathlib

/-!
Verification of the KAREN interaction controller (src/audio/main.py and
src/control_vio.py): a shallow embedding of the display state machine, the
file-based command channel, the game/screensaver sub-loops, the reply parser,
and the main polling tick, together with theorems settling the spec claims.
-/

/-- FPGA display state code: flat green line (Idle). -/
def STATE_IDLE : Int := 0

/-- FPGA display state code: blue, subtle movement (Listening). -/
def STATE_LISTENING : Int := 1

/-- FPGA display state code: green, moderate movement (speaking neutral). -/
def STATE_NEUTRAL : Int := 2

/-- FPGA display state code: red, chaotic (speaking angry). -/
def STATE_ANGRY : Int := 3

/-- FPGA display state code: pastel color wash (screensaver). -/
def STATE_SCREENSAVER : Int := 4

/-- FPGA display state code: breakout game mode. -/
def STATE_GAME : Int := 5

/-- The command file written by VivadoVIOController in src/audio/main.py:
the slot holds the entire current file content. -/
structure Channel where
  slot : String
deriving DecidableEq, Repr

/-- VivadoVIOController._send_command: under the instance lock, open the
command file in write mode (truncating it) and write the whole command,
then sleep for the settling delay.  The new content wholly replaces the old. -/
def send_command (_ch : Channel) (cmd : String) : Channel :=
  { slot := cmd }

/-- VivadoVIOController.set_state: writes the literal text "state <n>". -/
def set_state (ch : Channel) (state_value : Int) : Channel :=
  send_command ch ("state " ++ toString state_value)

/-- VivadoVIOController.set_amplitude: writes the literal text "amp <n>". -/
def set_amplitude (ch : Channel) (amp_value : Int) : Channel :=
  send_command ch ("amp " ++ toString amp_value)

/-- One command sent over the channel, as observed by the external renderer:
either a display-state change or an amplitude update. -/
inductive Cmd where
  | state (n : Int)
  | amp (n : Int)
deriving DecidableEq, Repr

/-- The display-state codes appearing in a command trace, in order. -/
def stateCmds : List Cmd → List Int
  | [] => []
  | Cmd.state n :: r => n :: stateCmds r
  | Cmd.amp _ :: r => stateCmds r

/-- The last display-state code sent in a trace, if any. -/
def lastState (l : List Cmd) : Option Int :=
  (stateCmds l).getLast?

/-- How many times the display-state code n is sent in a trace. -/
def countState (n : Int) (l : List Cmd) : Nat :=
  (stateCmds l).count n

/-- Per-tick direction input inside run_game_mode: left arrow held, right
arrow held, or neither (keyboard.is_pressed of each arrow; left checked
first, the right branch is an elif). -/
inductive GameKey where
  | left
  | right
  | neither
deriving DecidableEq, Repr

/-- paddle_speed in run_game_mode. -/
def paddle_speed : Int := 24

/-- One paddle update of run_game_mode:
left gives max(0, p - paddle_speed), right gives min(255, p + paddle_speed),
no key leaves the paddle unchanged. -/
def gameTickPaddle (p : Int) : GameKey → Int
  | GameKey.left => max 0 (p - paddle_speed)
  | GameKey.right => min 255 (p + paddle_speed)
  | GameKey.neither => p

/-- The channel commands sent by one game tick: an amplitude update with the
new paddle position when a direction key is held, nothing otherwise. -/
def gameTickTrace (p : Int) : GameKey → List Cmd
  | GameKey.left => [Cmd.amp (gameTickPaddle p GameKey.left)]
  | GameKey.right => [Cmd.amp (gameTickPaddle p GameKey.right)]
  | GameKey.neither => []

/-- The body of run_game_mode's while loop over a list of per-tick inputs
(the list ends when ESC is pressed): final paddle position and the trace of
channel commands sent. -/
def gameLoop : Int → List GameKey → Int × List Cmd
  | p, [] => (p, [])
  | p, k :: ks =>
    let r := gameLoop (gameTickPaddle p k) ks
    (r.1, gameTickTrace p k ++ r.2)

/-- run_game_mode: sends state GAME, runs the paddle loop from position 128
until ESC, then sends state IDLE twice and resets the amplitude to 128. -/
def run_game_mode (ticks : List GameKey) : List Cmd :=
  Cmd.state STATE_GAME :: (gameLoop 128 ticks).2
    ++ [Cmd.state STATE_IDLE, Cmd.state STATE_IDLE, Cmd.amp 128]

/-- run_screensaver_mode: sends state SCREENSAVER, waits for ESC (sending
nothing), then sends state IDLE once. -/
def run_screensaver_mode : List Cmd :=
  [Cmd.state STATE_SCREENSAVER, Cmd.state STATE_IDLE]

/-- ASCII whitespace as stripped by Python str.strip(). -/
def isSpaceChar (c : Char) : Bool :=
  c = ' ' || c = '\t' || c = '\n' || c = '\r' || c = '\x0b' || c = '\x0c'

/-- Drop leading whitespace characters. -/
def dropLeadingSpace : List Char → List Char
  | [] => []
  | c :: cs => if isSpaceChar c then dropLeadingSpace cs else c :: cs

/-- Python str.strip(): drop leading and trailing whitespace. -/
def stripChars (l : List Char) : List Char :=
  (dropLeadingSpace (dropLeadingSpace l).reverse).reverse

/-- Python str.split(sep) for a one-character separator. -/
def splitOnChar (sep : Char) : List Char → List (List Char)
  | [] => [[]]
  | c :: cs =>
    match splitOnChar sep cs with
    | [] => if c = sep then [[], []] else [[c]]
    | h :: t => if c = sep then [] :: h :: t else (c :: h) :: t

/-- Python str.startswith for list-of-character strings. -/
def startsWithChars : List Char → List Char → Bool
  | _, [] => true
  | [], _ :: _ => false
  | c :: cs, p :: ps => c = p && startsWithChars cs ps

/-- Python line.split(sep, 1)[1]: everything after the first occurrence of
sep (empty if sep never occurs; all uses are guarded by startswith, so a
separator is always present). -/
def afterChar (sep : Char) : List Char → List Char
  | [] => []
  | c :: cs => if c = sep then cs else afterChar sep cs

/-- Python str.lower() (ASCII case mapping, as used on the mood/command tags). -/
def pyLower (s : String) : String :=
  ⟨s.data.map Char.toLower⟩

/-- Python "\n".join for list-of-character lines. -/
def joinLines : List (List Char) → List Char
  | [] => []
  | [l] => l
  | l :: ls => l ++ '\n' :: joinLines ls

/-- The mood/command/text triple returned by parse_response. -/
structure Parsed where
  mood : String
  command : String
  text : String
deriving DecidableEq, Repr

/-- One iteration of parse_response's line loop: a line starting with
"mood:" (resp. "command:") replaces the mood (resp. command) with the
stripped remainder after the first colon; a line starting with "text:"
appends that stripped remainder to the clean text lines; any other line is
appended verbatim. -/
def parseStep (acc : String × String × List (List Char)) (line : List Char) :
    String × String × List (List Char) :=
  if startsWithChars line "mood:".data then
    (⟨stripChars (afterChar ':' line)⟩, acc.2.1, acc.2.2)
  else if startsWithChars line "command:".data then
    (acc.1, ⟨stripChars (afterChar ':' line)⟩, acc.2.2)
  else if startsWithChars line "text:".data then
    (acc.1, acc.2.1, acc.2.2 ++ [stripChars (afterChar ':' line)])
  else
    (acc.1, acc.2.1, acc.2.2 ++ [line])

/-- parse_response in src/audio/main.py: strip the reply, split into lines,
fold the line loop starting from mood "neutral" and command "none", and
rebuild the text from the clean lines (falling back to the whole stripped
reply when no clean line was collected). -/
def parse_response (response_text : String) : Parsed :=
  let lines := splitOnChar '\n' (stripChars response_text.data)
  let r := lines.foldl parseStep ("neutral", "none", [])
  { mood := r.1
    command := r.2.1
    text := if r.2.2.isEmpty then ⟨stripChars response_text.data⟩
            else ⟨joinLines r.2.2⟩ }

/-- The speaking-state branch of main (lines 567-570): mood compared
case-insensitively against "angry" selects the ANGRY state, any other mood
selects the NEUTRAL state. -/
def speakingState (mood : String) : Int :=
  if pyLower mood = "angry" then STATE_ANGRY else STATE_NEUTRAL

/-- The embedded command recognized by main from the parsed reply. -/
inductive CommandKind where
  | noCommand
  | game
  | screensaver
deriving DecidableEq, Repr

/-- main's command branching (lines 583-590): command compared
case-insensitively against "game" and "screensaver"; anything else is no
command. -/
def commandKind (c : String) : CommandKind :=
  if pyLower c = "game" then CommandKind.game
  else if pyLower c = "screensaver" then CommandKind.screensaver
  else CommandKind.noCommand

/-- The keys polled at the top of one main-loop tick. -/
structure Keys where
  ctrlq : Bool
  g : Bool
  four : Bool
  space : Bool
deriving DecidableEq, Repr

/-- Outcome of the blocking voice turn once SPACE is pressed:
r.listen raising WaitTimeoutError, r.listen raising any other exception,
recognize_google raising UnknownValueError or RequestError, any other
exception while recognizing or generating the reply (all raising calls of
the processing block precede the speaking state), or success with the
parsed mood and command tags. -/
inductive PipelineResult where
  | waitTimeout
  | captureError
  | unknownValue
  | requestError
  | processingError
  | success (mood command : String)
deriving DecidableEq, Repr

/-- Whether a pipeline outcome is one of the failure branches. -/
def PipelineResult.isFailure : PipelineResult → Bool
  | PipelineResult.success _ _ => false
  | _ => true

/-- Result of one main-loop tick: the channel commands sent during the tick,
the new last_interaction_time, and whether the loop breaks (quit). -/
structure TickOut where
  trace : List Cmd
  lastInteraction : ℚ
  quit : Bool
deriving DecidableEq, Repr

/-- The command-mode trace run after speaking (main lines 583-590). -/
def commandTrace (cmd : String) (gts : List GameKey) : List Cmd :=
  match commandKind cmd with
  | CommandKind.game => run_game_mode gts
  | CommandKind.screensaver => run_screensaver_mode
  | CommandKind.noCommand => []

/-- The channel commands of one Listening turn (main lines 452-603), from
update_state(STATE_LISTENING) to the final update_state(STATE_IDLE):
capture failures send IDLE then amplitude 255 and end the tick; after a
successful capture the code sends amplitude 128 and IDLE twice, then on
recognition/generation failure falls through to the final IDLE, and on
success sends the mood-selected speaking state, amplitude 255, the embedded
command mode if any, and the final IDLE. -/
def listenTurn (pipe : PipelineResult) (gts : List GameKey) : List Cmd :=
  Cmd.state STATE_LISTENING ::
  match pipe with
  | PipelineResult.waitTimeout => [Cmd.state STATE_IDLE, Cmd.amp 255]
  | PipelineResult.captureError => [Cmd.state STATE_IDLE, Cmd.amp 255]
  | PipelineResult.unknownValue =>
      [Cmd.amp 128, Cmd.state STATE_IDLE, Cmd.state STATE_IDLE, Cmd.state STATE_IDLE]
  | PipelineResult.requestError =>
      [Cmd.amp 128, Cmd.state STATE_IDLE, Cmd.state STATE_IDLE, Cmd.state STATE_IDLE]
  | PipelineResult.processingError =>
      [Cmd.amp 128, Cmd.state STATE_IDLE, Cmd.state STATE_IDLE, Cmd.state STATE_IDLE]
  | PipelineResult.success mood cmd =>
      [Cmd.amp 128, Cmd.state STATE_IDLE, Cmd.state STATE_IDLE,
       Cmd.state (speakingState mood), Cmd.amp 255]
      ++ commandTrace cmd gts ++ [Cmd.state STATE_IDLE]

/-- One iteration of main's while loop (lines 412-603), with the checks in
source order: auto-screensaver when now - last_interaction_time > 20, then
Ctrl+Q (break), then G (game mode), then 4 (screensaver), then SPACE not
held (idle tick), else the Listening turn.  tl is last_interaction_time at
loop entry, now is the tick's time.time() reading, and tReset is the
time.time() reading taken at the point where the code resets
last_interaction_time inside this iteration (so now ≤ tReset). -/
def tick (tl now tReset : ℚ) (k : Keys) (gts : List GameKey)
    (pipe : PipelineResult) : TickOut :=
  if now - tl > 20 then
    { trace := run_screensaver_mode, lastInteraction := tReset, quit := false }
  else if k.ctrlq then
    { trace := [], lastInteraction := tl, quit := true }
  else if k.g then
    { trace := run_game_mode gts, lastInteraction := tReset, quit := false }
  else if k.four then
    { trace := run_screensaver_mode, lastInteraction := tReset, quit := false }
  else if !k.space then
    { trace := [], lastInteraction := tl, quit := false }
  else
    { trace := listenTurn pipe gts, lastInteraction := tReset, quit := false }

/-- The commands sent after main's while loop exits (line 613):
a single final update_state(STATE_IDLE). -/
def shutdownTrace : List Cmd :=
  [Cmd.state STATE_IDLE]

/-- The two writers to the command channel: the main tick loop (a) and the
sounddevice audio-level callback thread (b), both funneling through
VivadoVIOController._send_command. -/
inductive Tid where
  | a
  | b
deriving DecidableEq, Repr

/-- One primitive action of _send_command on the shared command file:
acquire the controller's threading.Lock (blocking), truncate the file
(open in write mode), write one character of the command, release the
lock. -/
inductive Instr where
  | acquire
  | truncate
  | writeChar (c : Char)
  | release
deriving DecidableEq, Repr

/-- The action sequence of one _send_command(cmd) call: take the lock,
truncate the file, write the command's characters in order, release. -/
def sendProg (cmd : String) : List Instr :=
  Instr.acquire :: Instr.truncate ::
    (cmd.data.map Instr.writeChar ++ [Instr.release])

/-- The action sequence of a thread issuing a list of commands in order. -/
def prog : List String → List Instr
  | [] => []
  | c :: cs => sendProg c ++ prog cs

/-- Shared state of the two writers: the lock holder (at most one by
construction), the command-file content, and each thread's remaining
actions. -/
structure Sys where
  lock : Option Tid
  slot : List Char
  ra : List Instr
  rb : List Instr
deriving DecidableEq, Repr

/-- The remaining program of a thread. -/
def Sys.rem (s : Sys) : Tid → List Instr
  | Tid.a => s.ra
  | Tid.b => s.rb

/-- Replace the remaining program of a thread. -/
def Sys.setRem (s : Sys) : Tid → List Instr → Sys
  | Tid.a, r => { s with ra := r }
  | Tid.b, r => { s with rb := r }

/-- Effect of one action by thread t, when enabled: acquire succeeds only
while the lock is free; truncate, write and release act only while t itself
holds the lock. -/
def execInstr (t : Tid) (i : Instr) (s : Sys) : Option Sys :=
  match i with
  | Instr.acquire =>
      if s.lock = none then some { s with lock := some t } else none
  | Instr.truncate =>
      if s.lock = some t then some { s with slot := [] } else none
  | Instr.writeChar c =>
      if s.lock = some t then some { s with slot := s.slot ++ [c] } else none
  | Instr.release =>
      if s.lock = some t then some { s with lock := none } else none

/-- Schedule thread t for one step: execute its next action if enabled,
otherwise leave the state unchanged (the thread blocks waiting for the
lock). -/
def step (t : Tid) (s : Sys) : Sys :=
  match s.rem t with
  | [] => s
  | i :: r =>
    match execInstr t i (s.setRem t r) with
    | some s2 => s2
    | none => s

/-- Run an arbitrary interleaving of the two threads, given by a schedule. -/
def runSched (s : Sys) (sched : List Tid) : Sys :=
  sched.foldl (fun s1 t => step t s1) s

/-- Initial state: lock free, empty command file, thread a about to issue
cmdsA and thread b about to issue cmdsB. -/
def initSys (cmdsA cmdsB : List String) : Sys :=
  { lock := none, slot := [], ra := prog cmdsA, rb := prog cmdsB }

/-- The command file holds one complete command of one of the writers, or
its initial empty content. -/
def SlotOK (cmdsA cmdsB : List String) (slot : List Char) : Prop :=
  slot = [] ∨ ∃ c, (c ∈ cmdsA ∨ c ∈ cmdsB) ∧ slot = c.data

/-- A thread outside its critical section: its remaining actions are the
program of commands it has yet to issue, all drawn from its own command
list. -/
def IdleRem (cmds : List String) (r : List Instr) : Prop :=
  ∃ cs : List String, (∀ c ∈ cs, c ∈ cmds) ∧ r = prog cs

/-- A thread inside its critical section: either it is about to truncate
(the file still holds the previous complete content), or it has written
exactly the first k characters of its current command. -/
def BusyRem (cmdsA cmdsB cmds : List String) (r : List Instr)
    (slot : List Char) : Prop :=
  ∃ cmd cs, cmd ∈ cmds ∧ (∀ c ∈ cs, c ∈ cmds) ∧
    ((r = Instr.truncate :: (cmd.data.map Instr.writeChar ++ [Instr.release])
        ++ prog cs ∧ SlotOK cmdsA cmdsB slot) ∨
     (∃ k, k ≤ cmd.data.length ∧
        r = (cmd.data.drop k).map Instr.writeChar ++ [Instr.release]
          ++ prog cs ∧
        slot = cmd.data.take k))

/-- The mutual-exclusion invariant: while the lock is free both threads sit
at a send boundary and the file holds one complete command; while a thread
holds the lock it is mid-send and the other thread sits at a boundary. -/
def ChanInv (cmdsA cmdsB : List String) (s : Sys) : Prop :=
  match s.lock with
  | none =>
      IdleRem cmdsA s.ra ∧ IdleRem cmdsB s.rb ∧ SlotOK cmdsA cmdsB s.slot
  | some Tid.a => BusyRem cmdsA cmdsB cmdsA s.ra s.slot ∧ IdleRem cmdsB s.rb
  | some Tid.b => IdleRem cmdsA s.ra ∧ BusyRem cmdsA cmdsB cmdsB s.rb s.slot

theorem stateCmds_append (l₁ l₂ : List Cmd) :
    stateCmds (l₁ ++ l₂) = stateCmds l₁ ++ stateCmds l₂ := by
  induction l₁ with
  | nil => rfl
  | cons c r ih => cases c <;> simp [stateCmds, ih]

theorem stateCmds_gameTickTrace (p : Int) (k : GameKey) :
    stateCmds (gameTickTrace p k) = [] := by
  cases k <;> rfl

theorem stateCmds_gameLoop (ks : List GameKey) (p : Int) :
    stateCmds (gameLoop p ks).2 = [] := by
  induction ks generalizing p with
  | nil => rfl
  | cons k ks ih => simp [gameLoop, stateCmds_append, stateCmds_gameTickTrace, ih]

theorem stateCmds_run_game_mode (ticks : List GameKey) :
    stateCmds (run_game_mode ticks) = [STATE_GAME, STATE_IDLE, STATE_IDLE] := by
  simp [run_game_mode, stateCmds, stateCmds_append, stateCmds_gameLoop]

theorem stateCmds_tick_success (tl now tReset : ℚ) (k : Keys)
    (gts : List GameKey) (mood cmd : String) (hs : k.space = true)
    (hq : k.ctrlq = false) (hg : k.g = false) (h4 : k.four = false)
    (ht : ¬ now - tl > 20) :
    stateCmds (tick tl now tReset k gts (PipelineResult.success mood cmd)).trace =
      STATE_LISTENING :: STATE_IDLE :: STATE_IDLE :: speakingState mood ::
        (stateCmds (commandTrace cmd gts) ++ [STATE_IDLE]) := by
  simp [tick, ht, hq, hg, h4, hs, listenTurn, stateCmds, stateCmds_append]

theorem speakingState_eq_or (m : String) :
    speakingState m = STATE_ANGRY ∨ speakingState m = STATE_NEUTRAL := by
  unfold speakingState
  split <;> simp

theorem stateCmds_commandTrace (cmd : String) (gts : List GameKey) :
    stateCmds (commandTrace cmd gts) =
      match commandKind cmd with
      | CommandKind.game => [STATE_GAME, STATE_IDLE, STATE_IDLE]
      | CommandKind.screensaver => [STATE_SCREENSAVER, STATE_IDLE]
      | CommandKind.noCommand => [] := by
  unfold commandTrace
  cases commandKind cmd <;>
    simp [run_game_mode, run_screensaver_mode, stateCmds, stateCmds_append,
      stateCmds_gameLoop]

theorem parseStep_fst (acc : String × String × List (List Char)) (l : List Char)
    (hl : startsWithChars l "mood:".data = false) :
    (parseStep acc l).1 = acc.1 := by
  unfold parseStep
  rw [if_neg (by simp [hl])]
  split_ifs <;> rfl

theorem parseStep_snd (acc : String × String × List (List Char)) (l : List Char)
    (hl : startsWithChars l "command:".data = false) :
    (parseStep acc l).2.1 = acc.2.1 := by
  unfold parseStep
  split_ifs <;> simp_all

theorem foldl_parseStep_fst (lines : List (List Char))
    (acc : String × String × List (List Char))
    (h : ∀ l ∈ lines, startsWithChars l "mood:".data = false) :
    (lines.foldl parseStep acc).1 = acc.1 := by
  induction lines generalizing acc with
  | nil => rfl
  | cons l ls ih =>
    rw [List.foldl_cons, ih _ (fun x hx => h x (List.mem_cons_of_mem _ hx)),
      parseStep_fst _ _ (h l (List.mem_cons_self _ _))]

theorem foldl_parseStep_snd (lines : List (List Char))
    (acc : String × String × List (List Char))
    (h : ∀ l ∈ lines, startsWithChars l "command:".data = false) :
    (lines.foldl parseStep acc).2.1 = acc.2.1 := by
  induction lines generalizing acc with
  | nil => rfl
  | cons l ls ih =>
    rw [List.foldl_cons, ih _ (fun x hx => h x (List.mem_cons_of_mem _ hx)),
      parseStep_snd _ _ (h l (List.mem_cons_self _ _))]

theorem paddle_right_iter (N : Nat) (p : Int) (h : p ≤ 255) :
    (List.replicate N GameKey.right).foldl gameTickPaddle p =
      min 255 (p + paddle_speed * N) := by
  induction N generalizing p with
  | zero => simp [paddle_speed]; omega
  | succ n ih =>
    rw [List.replicate_succ, List.foldl_cons]
    have hstep : gameTickPaddle p GameKey.right = min 255 (p + paddle_speed) := rfl
    rw [ih (gameTickPaddle p GameKey.right) (by rw [hstep]; omega), hstep]
    simp only [paddle_speed, Nat.cast_succ]
    omega

theorem paddle_left_iter (N : Nat) (p : Int) (h : 0 ≤ p) :
    (List.replicate N GameKey.left).foldl gameTickPaddle p =
      max 0 (p - paddle_speed * N) := by
  induction N generalizing p with
  | zero => simp [paddle_speed]; omega
  | succ n ih =>
    rw [List.replicate_succ, List.foldl_cons]
    have hstep : gameTickPaddle p GameKey.left = max 0 (p - paddle_speed) := rfl
    rw [ih (gameTickPaddle p GameKey.left) (by rw [hstep]; omega), hstep]
    simp only [paddle_speed, Nat.cast_succ]
    omega

/-- C10: set_state writes exactly "state <n>" and set_amplitude exactly
"amp <n>" as the whole command-file content, for every integer n with no
range validation (out-of-range values are forwarded unchanged), and the
result is independent of the previous content (last-writer-wins overwrite). -/
theorem c10_channel_write_format (ch ch2 : Channel) (n : Int) :
    (set_state ch n).slot = "state " ++ toString n ∧
    (set_amplitude ch n).slot = "amp " ++ toString n ∧
    set_state ch n = set_state ch2 n ∧
    set_amplitude ch n = set_amplitude ch2 n :=
  ⟨rfl, rfl, rfl, rfl⟩

/-- C7: for every game session, run_game_mode's exit path returns the display
to Idle redundantly — the state commands of the whole session are exactly
GAME then IDLE twice (the paddle loop sends only amplitude updates) — and the
last command resets the amplitude to the neutral midpoint 128. -/
theorem c7_game_exit_idle (ticks : List GameKey) :
    stateCmds (run_game_mode ticks) = [STATE_GAME, STATE_IDLE, STATE_IDLE] ∧
    countState STATE_IDLE (run_game_mode ticks) = 2 ∧
    lastState (run_game_mode ticks) = some STATE_IDLE ∧
    (run_game_mode ticks).getLast? = some (Cmd.amp 128) := by
  refine ⟨stateCmds_run_game_mode ticks, ?_, ?_, ?_⟩
  · rw [countState, stateCmds_run_game_mode]; decide
  · rw [lastState, stateCmds_run_game_mode]; decide
  · have h : run_game_mode ticks =
        (Cmd.state STATE_GAME :: ((gameLoop 128 ticks).2
          ++ [Cmd.state STATE_IDLE, Cmd.state STATE_IDLE])) ++ [Cmd.amp 128] := by
      simp [run_game_mode]
    rw [h, List.getLast?_concat]

/-- C6: in Game mode, holding right for N ticks moves the paddle to
min 255 (p + 24N) and holding left to max 0 (p - 24N) — one fixed step per
held tick, saturating at the bounds — a tick with no direction key leaves
the paddle unchanged, and every single step keeps the paddle inside
[0, 255]. -/
theorem c6_paddle_steps (p : Int) (N : Nat) (k : GameKey)
    (h0 : 0 ≤ p) (h255 : p ≤ 255) :
    (List.replicate N GameKey.right).foldl gameTickPaddle p =
      min 255 (p + paddle_speed * N) ∧
    (List.replicate N GameKey.left).foldl gameTickPaddle p =
      max 0 (p - paddle_speed * N) ∧
    gameTickPaddle p GameKey.neither = p ∧
    (0 ≤ gameTickPaddle p k ∧ gameTickPaddle p k ≤ 255) := by
  refine ⟨paddle_right_iter N p h255, paddle_left_iter N p h0, rfl, ?_⟩
  cases k <;> simp [gameTickPaddle, paddle_speed] <;> omega

/-- C6 witness: from the initial paddle position 128, three held right ticks
land on 200 = 128 + 3 × 24 and a no-key tick stays at 128. -/
theorem c6_paddle_steps_witness :
    (0 : Int) ≤ 128 ∧ (128 : Int) ≤ 255 ∧
    ((List.replicate 3 GameKey.right).foldl gameTickPaddle 128 =
        min 255 (128 + paddle_speed * 3) ∧
      (List.replicate 3 GameKey.left).foldl gameTickPaddle 128 =
        max 0 (128 - paddle_speed * 3) ∧
      gameTickPaddle 128 GameKey.neither = 128 ∧
      (0 ≤ gameTickPaddle 128 GameKey.right ∧
        gameTickPaddle 128 GameKey.right ≤ 255)) :=
  ⟨by decide, by decide,
    c6_paddle_steps 128 3 GameKey.right (by decide) (by decide)⟩

/-- C4 counterexample: the mood value "Angry" is not the string "angry", yet
the speaking branch selects the SpeakingAngry state for it, refuting that
every mood value other than "angry" yields SpeakingNeutral: the code lowers
the mood before comparing. -/
theorem c4_counterexample :
    speakingState "Angry" = STATE_ANGRY ∧ ("Angry" : String) ≠ "angry" ∧
    STATE_ANGRY ≠ STATE_NEUTRAL := by decide

/-- C4 (amended): on pipeline success the next display state is decided
solely by the reported mood, compared case-insensitively: any mood that
lowercases to "angry" yields SpeakingAngry and every other mood yields
SpeakingNeutral; the state command sent right after the capture prefix is
speakingState mood for every command tag. -/
theorem c4_mood_selects_speaking (tl now tReset : ℚ) (k : Keys)
    (gts : List GameKey) (mood cmd : String) (hs : k.space = true)
    (hq : k.ctrlq = false) (hg : k.g = false) (h4 : k.four = false)
    (ht : ¬ now - tl > 20) :
    stateCmds (tick tl now tReset k gts (PipelineResult.success mood cmd)).trace =
      STATE_LISTENING :: STATE_IDLE :: STATE_IDLE :: speakingState mood ::
        (stateCmds (commandTrace cmd gts) ++ [STATE_IDLE]) ∧
    (pyLower mood = "angry" → speakingState mood = STATE_ANGRY) ∧
    (pyLower mood ≠ "angry" → speakingState mood = STATE_NEUTRAL) := by
  refine ⟨?_, ?_, ?_⟩
  · simp [tick, ht, hq, hg, h4, hs, listenTurn, stateCmds, stateCmds_append]
  · intro h; simp [speakingState, h]
  · intro h; simp [speakingState, h]

/-- C4 witness: a concrete successful turn with mood "angry" and no command. -/
theorem c4_mood_selects_speaking_witness :
    stateCmds (tick 0 0 0 ⟨false, false, false, true⟩ []
        (PipelineResult.success "angry" "none")).trace =
      STATE_LISTENING :: STATE_IDLE :: STATE_IDLE :: speakingState "angry" ::
        (stateCmds (commandTrace "none" []) ++ [STATE_IDLE]) ∧
    (pyLower "angry" = "angry" → speakingState "angry" = STATE_ANGRY) ∧
    (pyLower "angry" ≠ "angry" → speakingState "angry" = STATE_NEUTRAL) :=
  c4_mood_selects_speaking 0 0 0 ⟨false, false, false, true⟩ [] "angry" "none"
    rfl rfl rfl rfl (by norm_num)

/-- C1: every pipeline failure during a Listening turn (capture timeout,
capture error, recognition failure, request error, or any other processing
exception) ends the tick with the loop continuing (no propagation), the last
display-state command of the turn being Idle, no speaking state ever sent
(no speech attempted), and the idle timer reset. -/
theorem c1_pipeline_failure_idle (tl now tReset : ℚ) (k : Keys)
    (gts : List GameKey) (pipe : PipelineResult)
    (hf : pipe.isFailure = true) (hs : k.space = true) (hq : k.ctrlq = false)
    (hg : k.g = false) (h4 : k.four = false) (ht : ¬ now - tl > 20) :
    (tick tl now tReset k gts pipe).quit = false ∧
    lastState (tick tl now tReset k gts pipe).trace = some STATE_IDLE ∧
    STATE_NEUTRAL ∉ stateCmds (tick tl now tReset k gts pipe).trace ∧
    STATE_ANGRY ∉ stateCmds (tick tl now tReset k gts pipe).trace ∧
    (tick tl now tReset k gts pipe).lastInteraction = tReset := by
  have h1 : tick tl now tReset k gts pipe =
      { trace := listenTurn pipe gts, lastInteraction := tReset, quit := false } := by
    simp [tick, ht, hq, hg, h4, hs]
  rw [h1]
  cases pipe
  case success mood cmd => simp [PipelineResult.isFailure] at hf
  all_goals
    refine ⟨rfl, ?_, ?_, ?_, rfl⟩ <;>
      simp [listenTurn, lastState, stateCmds, STATE_IDLE, STATE_NEUTRAL,
        STATE_ANGRY, STATE_LISTENING]

/-- C1 witness: a concrete capture-timeout turn. -/
theorem c1_pipeline_failure_idle_witness :
    (tick 0 0 0 ⟨false, false, false, true⟩ [] PipelineResult.waitTimeout).quit
        = false ∧
    lastState (tick 0 0 0 ⟨false, false, false, true⟩ []
        PipelineResult.waitTimeout).trace = some STATE_IDLE ∧
    STATE_NEUTRAL ∉ stateCmds (tick 0 0 0 ⟨false, false, false, true⟩ []
        PipelineResult.waitTimeout).trace ∧
    STATE_ANGRY ∉ stateCmds (tick 0 0 0 ⟨false, false, false, true⟩ []
        PipelineResult.waitTimeout).trace ∧
    (tick 0 0 0 ⟨false, false, false, true⟩ []
        PipelineResult.waitTimeout).lastInteraction = 0 :=
  c1_pipeline_failure_idle 0 0 0 ⟨false, false, false, true⟩ []
    PipelineResult.waitTimeout rfl rfl rfl rfl rfl (by norm_num)

/-- C2 counterexample: with exactly the 20-second threshold elapsed since the
last qualifying event (so no qualifying event for at least the threshold),
the tick neither enters the screensaver nor sends anything — the code fires
only strictly beyond 20 seconds. -/
theorem c2_counterexample :
    (20 : ℚ) - 0 ≥ 20 ∧
    tick 0 20 20 ⟨false, false, false, false⟩ [] PipelineResult.waitTimeout =
      { trace := [], lastInteraction := 0, quit := false } := by
  constructor
  · norm_num
  · norm_num [tick]

/-- C2 (amended): if, while in Idle, no qualifying event occurs for strictly
more than the 20-second threshold, the next tick enters Screensaver (and
resets the idle timer); the idle timer is reset by every manual mode
transition (game key, screensaver key, push-to-talk) and by pipeline
completion, and the reset is monotonic — the timer never moves backward and
never beyond the in-tick reset reading. -/
theorem c2_idle_timeout (tl now tReset : ℚ) (k : Keys) (gts : List GameKey)
    (pipe : PipelineResult) (h0 : tl ≤ now) (h1 : now ≤ tReset) :
    (now - tl > 20 →
      (tick tl now tReset k gts pipe).trace = run_screensaver_mode ∧
      (tick tl now tReset k gts pipe).lastInteraction = tReset) ∧
    (¬ now - tl > 20 → k.ctrlq = false →
      (k.g = true ∨ k.four = true ∨ k.space = true) →
      (tick tl now tReset k gts pipe).lastInteraction = tReset) ∧
    tl ≤ (tick tl now tReset k gts pipe).lastInteraction ∧
    (tick tl now tReset k gts pipe).lastInteraction ≤ tReset := by
  refine ⟨?_, ?_, ?_, ?_⟩
  · intro hA
    simp [tick, hA]
  · intro hA hq hor
    by_cases hg : k.g = true
    · simp [tick, hA, hq, hg]
    · have hg2 : k.g = false := by revert hg; cases k.g <;> simp
      by_cases h4 : k.four = true
      · simp [tick, hA, hq, hg2, h4]
      · have h42 : k.four = false := by revert h4; cases k.four <;> simp
        have hsp : k.space = true := by
          rcases hor with h | h | h
          · exact absurd h (by simp [hg2])
          · exact absurd h (by simp [h42])
          · exact h
        simp [tick, hA, hq, hg2, h42, hsp]
  · unfold tick
    split_ifs <;> simp <;> linarith
  · unfold tick
    split_ifs <;> simp <;> linarith

/-- C2 witness: 21 seconds of idle causes the screensaver transition, and the
timer fields move forward. -/
theorem c2_idle_timeout_witness :
    (((21 : ℚ) - 0 > 20 →
      (tick 0 21 21 ⟨false, false, false, false⟩ []
        PipelineResult.waitTimeout).trace = run_screensaver_mode ∧
      (tick 0 21 21 ⟨false, false, false, false⟩ []
        PipelineResult.waitTimeout).lastInteraction = 21) ∧
    (¬ (21 : ℚ) - 0 > 20 → Keys.ctrlq ⟨false, false, false, false⟩ = false →
      (Keys.g ⟨false, false, false, false⟩ = true ∨
        Keys.four ⟨false, false, false, false⟩ = true ∨
        Keys.space ⟨false, false, false, false⟩ = true) →
      (tick 0 21 21 ⟨false, false, false, false⟩ []
        PipelineResult.waitTimeout).lastInteraction = 21) ∧
    (0 : ℚ) ≤ (tick 0 21 21 ⟨false, false, false, false⟩ []
        PipelineResult.waitTimeout).lastInteraction ∧
    (tick 0 21 21 ⟨false, false, false, false⟩ []
        PipelineResult.waitTimeout).lastInteraction ≤ 21) :=
  c2_idle_timeout 0 21 21 ⟨false, false, false, false⟩ []
    PipelineResult.waitTimeout (by norm_num) (le_refl 21)

/-- C3 counterexample: in a successful turn whose reply carries command
"game", the display-state sequence of the turn is Listening, Idle, Idle,
SpeakingNeutral, then Game directly — the controller enters Game straight
from the speaking state, and the Idle transitions come only after the game
exits, not between playback and the Game entry as the claim requires. -/
theorem c3_counterexample :
    stateCmds (tick 0 0 0 ⟨false, false, false, true⟩ []
        (PipelineResult.success "neutral" "game")).trace =
      [STATE_LISTENING, STATE_IDLE, STATE_IDLE, STATE_NEUTRAL, STATE_GAME,
       STATE_IDLE, STATE_IDLE, STATE_IDLE] := by
  have h : tick 0 0 0 ⟨false, false, false, true⟩ []
      (PipelineResult.success "neutral" "game") =
      { trace := listenTurn (PipelineResult.success "neutral" "game") [],
        lastInteraction := 0, quit := false } := by
    norm_num [tick]
  rw [h]
  decide

/-- C3 (amended): after playback in a successful turn the controller enters
the commanded mode directly from the speaking state — exactly one Game entry
when the command is game, exactly one Screensaver entry when the command is
screensaver, and no such entry when there is no command; the Idle transition
is sent after the commanded mode exits (the turn's last state command is
Idle); and the command is not re-executed on subsequent ticks (a later tick
with no key pressed sends nothing). -/
theorem c3_command_once (tl now tReset : ℚ) (k : Keys) (gts : List GameKey)
    (mood cmd : String) (hs : k.space = true) (hq : k.ctrlq = false)
    (hg : k.g = false) (h4 : k.four = false) (ht : ¬ now - tl > 20) :
    (commandKind cmd = CommandKind.game →
      countState STATE_GAME (tick tl now tReset k gts
        (PipelineResult.success mood cmd)).trace = 1) ∧
    (commandKind cmd = CommandKind.screensaver →
      countState STATE_SCREENSAVER (tick tl now tReset k gts
        (PipelineResult.success mood cmd)).trace = 1) ∧
    (commandKind cmd = CommandKind.noCommand →
      countState STATE_GAME (tick tl now tReset k gts
        (PipelineResult.success mood cmd)).trace = 0 ∧
      countState STATE_SCREENSAVER (tick tl now tReset k gts
        (PipelineResult.success mood cmd)).trace = 0) ∧
    lastState (tick tl now tReset k gts
        (PipelineResult.success mood cmd)).trace = some STATE_IDLE ∧
    (∀ tl2 now2 tr2 pipe2, ¬ now2 - tl2 > 20 →
      (tick tl2 now2 tr2 ⟨false, false, false, false⟩ gts pipe2).trace = []) := by
  have h1 := stateCmds_tick_success tl now tReset k gts mood cmd hs hq hg h4 ht
  refine ⟨?_, ?_, ?_, ?_, ?_⟩
  · intro hc
    rw [countState, h1, stateCmds_commandTrace, hc]
    rcases speakingState_eq_or mood with hsm | hsm <;> rw [hsm] <;> decide
  · intro hc
    rw [countState, h1, stateCmds_commandTrace, hc]
    rcases speakingState_eq_or mood with hsm | hsm <;> rw [hsm] <;> decide
  · intro hc
    constructor <;>
      · rw [countState, h1, stateCmds_commandTrace, hc]
        rcases speakingState_eq_or mood with hsm | hsm <;> rw [hsm] <;> decide
  · rw [lastState, h1]
    have h2 : (STATE_LISTENING :: STATE_IDLE :: STATE_IDLE :: speakingState mood ::
        (stateCmds (commandTrace cmd gts) ++ [STATE_IDLE])) =
        (STATE_LISTENING :: STATE_IDLE :: STATE_IDLE :: speakingState mood ::
          stateCmds (commandTrace cmd gts)) ++ [STATE_IDLE] := by simp
    rw [h2, List.getLast?_concat]
  · intro tl2 now2 tr2 pipe2 hnt
    simp [tick, hnt]

/-- C3 witness: a concrete successful turn commanding the game. -/
theorem c3_command_once_witness :
    ((commandKind "game" = CommandKind.game →
      countState STATE_GAME (tick 0 0 0 ⟨false, false, false, true⟩ []
        (PipelineResult.success "neutral" "game")).trace = 1) ∧
    (commandKind "game" = CommandKind.screensaver →
      countState STATE_SCREENSAVER (tick 0 0 0 ⟨false, false, false, true⟩ []
        (PipelineResult.success "neutral" "game")).trace = 1) ∧
    (commandKind "game" = CommandKind.noCommand →
      countState STATE_GAME (tick 0 0 0 ⟨false, false, false, true⟩ []
        (PipelineResult.success "neutral" "game")).trace = 0 ∧
      countState STATE_SCREENSAVER (tick 0 0 0 ⟨false, false, false, true⟩ []
        (PipelineResult.success "neutral" "game")).trace = 0) ∧
    lastState (tick 0 0 0 ⟨false, false, false, true⟩ []
        (PipelineResult.success "neutral" "game")).trace = some STATE_IDLE ∧
    (∀ tl2 now2 tr2 pipe2, ¬ now2 - tl2 > 20 →
      (tick tl2 now2 tr2 ⟨false, false, false, false⟩ []
        pipe2).trace = [])) :=
  c3_command_once 0 0 0 ⟨false, false, false, true⟩ [] "neutral" "game"
    rfl rfl rfl rfl (by norm_num)

/-- C8 counterexample: Ctrl+Q pressed while Idle breaks the loop, after which
the only Idle forced onto the channel is the single final update_state —
one state-Idle send in total, not the two separate sends the claim states. -/
theorem c8_counterexample :
    (tick 0 0 0 ⟨true, false, false, false⟩ []
        PipelineResult.waitTimeout).quit = true ∧
    countState STATE_IDLE ((tick 0 0 0 ⟨true, false, false, false⟩ []
        PipelineResult.waitTimeout).trace ++ shutdownTrace) = 1 ∧
    countState STATE_IDLE ((tick 0 0 0 ⟨true, false, false, false⟩ []
        PipelineResult.waitTimeout).trace ++ shutdownTrace) ≠ 2 := by
  have h : tick 0 0 0 ⟨true, false, false, false⟩ [] PipelineResult.waitTimeout =
      { trace := [], lastInteraction := 0, quit := true } := by
    norm_num [tick]
  rw [h]
  exact ⟨rfl, by decide, by decide⟩

/-- C8 (amended): when the quit combination is pressed while in Idle, the
tick sends nothing and breaks the loop, and the shutdown path then forces
the Idle state onto the channel exactly once (a single state-Idle send). -/
theorem c8_quit_single_idle (tl now tReset : ℚ) (k : Keys) (gts : List GameKey)
    (pipe : PipelineResult) (hq : k.ctrlq = true) (ht : ¬ now - tl > 20) :
    (tick tl now tReset k gts pipe).quit = true ∧
    (tick tl now tReset k gts pipe).trace = [] ∧
    countState STATE_IDLE
      ((tick tl now tReset k gts pipe).trace ++ shutdownTrace) = 1 := by
  have h : tick tl now tReset k gts pipe =
      { trace := [], lastInteraction := tl, quit := true } := by
    simp [tick, ht, hq]
  rw [h]
  exact ⟨rfl, rfl, rfl⟩

/-- C8 witness: a concrete quit tick. -/
theorem c8_quit_single_idle_witness :
    ((tick 0 0 0 ⟨true, false, false, false⟩ []
        PipelineResult.unknownValue).quit = true ∧
    (tick 0 0 0 ⟨true, false, false, false⟩ []
        PipelineResult.unknownValue).trace = [] ∧
    countState STATE_IDLE ((tick 0 0 0 ⟨true, false, false, false⟩ []
        PipelineResult.unknownValue).trace ++ shutdownTrace) = 1) :=
  c8_quit_single_idle 0 0 0 ⟨true, false, false, false⟩ []
    PipelineResult.unknownValue rfl (by norm_num)

/-- C9 counterexample: parsing a reply whose tags are unrecognized yields the
raw tag values, not the defaults — mood "banana" and command "jump" pass
through verbatim as out-of-enum values (no exception is raised; parsing is
total, but the defaults apply only when the tag line is absent). -/
theorem c9_counterexample :
    (parse_response "mood: banana\ncommand: jump\ntext: hi").mood = "banana" ∧
    (parse_response "mood: banana\ncommand: jump\ntext: hi").command = "jump" ∧
    ("banana" : String) ≠ "neutral" ∧ ("jump" : String) ≠ "none" := by decide

/-- C9 (amended): parsing never raises (it is a total function) and the
defaults apply exactly when the tagged line is absent: if no line of the
stripped reply starts with "mood:" the mood is "neutral", and if none starts
with "command:" the command is "none"; a present unrecognized tag is
returned verbatim, but the controller's consumption still maps every mood
string to a defined speaking state and every command string to a defined
command kind. -/
theorem c9_parse_defaults (s : String) :
    ((∀ l ∈ splitOnChar '\n' (stripChars s.data),
        startsWithChars l "mood:".data = false) →
      (parse_response s).mood = "neutral") ∧
    ((∀ l ∈ splitOnChar '\n' (stripChars s.data),
        startsWithChars l "command:".data = false) →
      (parse_response s).command = "none") ∧
    (speakingState (parse_response s).mood = STATE_ANGRY ∨
      speakingState (parse_response s).mood = STATE_NEUTRAL) ∧
    (commandKind (parse_response s).command = CommandKind.game ∨
      commandKind (parse_response s).command = CommandKind.screensaver ∨
      commandKind (parse_response s).command = CommandKind.noCommand) := by
  refine ⟨?_, ?_, speakingState_eq_or _, ?_⟩
  · intro h
    unfold parse_response
    exact foldl_parseStep_fst _ _ h
  · intro h
    unfold parse_response
    exact foldl_parseStep_snd _ _ h
  · rcases hc : commandKind (parse_response s).command <;> simp

/-- C9 witness: a tagless reply gets both defaults. -/
theorem c9_parse_defaults_witness :
    (parse_response "hello").mood = "neutral" ∧
    (parse_response "hello").command = "none" :=
  ⟨(c9_parse_defaults "hello").1 (by decide),
    (c9_parse_defaults "hello").2.1 (by decide)⟩

theorem take_append_getElem (l : List Char) (k : Nat) (h : k < l.length) :
    l.take k ++ [l[k]] = l.take (k+1) := by
  rw [← List.concat_eq_append]
  exact List.take_concat_get l k h

theorem inv_step_a (cmdsA cmdsB : List String) (s : Sys)
    (h : ChanInv cmdsA cmdsB s) : ChanInv cmdsA cmdsB (step Tid.a s) := by
  obtain ⟨lock, slot, ra, rb⟩ := s
  rcases lock with _ | tl
  · obtain ⟨⟨cs, hcs, hra⟩, hIb, hslot⟩ := h
    subst hra
    cases cs with
    | nil => exact ⟨⟨[], by simp, rfl⟩, hIb, hslot⟩
    | cons cmd cs2 =>
      have hstep : step Tid.a ⟨none, slot, prog (cmd :: cs2), rb⟩ =
          ⟨some Tid.a, slot,
            Instr.truncate ::
              (cmd.data.map Instr.writeChar ++ [Instr.release]) ++ prog cs2,
            rb⟩ := by
        simp [step, Sys.rem, Sys.setRem, execInstr, prog, sendProg]
      rw [hstep]
      exact ⟨⟨cmd, cs2, hcs cmd (by simp),
        fun c hc => hcs c (by simp [hc]), Or.inl ⟨rfl, hslot⟩⟩, hIb⟩
  · rcases tl
    case a =>
      obtain ⟨⟨cmd, cs, hcmd, hcs, hphase⟩, hIb⟩ := h
      rcases hphase with ⟨hra, hslot⟩ | ⟨k, hk, hra, hslot⟩
      · subst hra
        have hstep : step Tid.a ⟨some Tid.a, slot,
            Instr.truncate ::
              (cmd.data.map Instr.writeChar ++ [Instr.release]) ++ prog cs,
            rb⟩ =
            ⟨some Tid.a, [],
              (cmd.data.map Instr.writeChar ++ [Instr.release]) ++ prog cs,
              rb⟩ := by
          simp [step, Sys.rem, Sys.setRem, execInstr]
        rw [hstep]
        exact ⟨⟨cmd, cs, hcmd, hcs,
          Or.inr ⟨0, Nat.zero_le _, by simp, by simp⟩⟩, hIb⟩
      · subst hra
        subst hslot
        rcases Nat.lt_or_ge k cmd.data.length with hlt | hge
        · have hra2 : (cmd.data.drop k).map Instr.writeChar ++ [Instr.release]
              ++ prog cs =
              Instr.writeChar cmd.data[k] ::
                ((cmd.data.drop (k+1)).map Instr.writeChar ++ [Instr.release]
                  ++ prog cs) := by
            rw [List.drop_eq_getElem_cons hlt]
            exact rfl
          rw [hra2]
          have hstep : step Tid.a ⟨some Tid.a, cmd.data.take k,
              Instr.writeChar cmd.data[k] ::
                ((cmd.data.drop (k+1)).map Instr.writeChar ++ [Instr.release]
                  ++ prog cs), rb⟩ =
              ⟨some Tid.a, cmd.data.take k ++ [cmd.data[k]],
                (cmd.data.drop (k+1)).map Instr.writeChar ++ [Instr.release]
                  ++ prog cs, rb⟩ := rfl
          rw [hstep, take_append_getElem cmd.data k hlt]
          exact ⟨⟨cmd, cs, hcmd, hcs, Or.inr ⟨k+1, hlt, rfl, rfl⟩⟩, hIb⟩
        · have hkl : k = cmd.data.length := Nat.le_antisymm hk hge
          subst hkl
          have hra2 : (cmd.data.drop cmd.data.length).map Instr.writeChar
              ++ [Instr.release] ++ prog cs = Instr.release :: prog cs := by
            rw [List.drop_length]
            exact rfl
          rw [hra2]
          have hstep : step Tid.a ⟨some Tid.a,
              cmd.data.take cmd.data.length, Instr.release :: prog cs, rb⟩ =
              ⟨none, cmd.data.take cmd.data.length, prog cs, rb⟩ := rfl
          rw [hstep]
          exact ⟨⟨cs, hcs, rfl⟩, hIb,
            Or.inr ⟨cmd, Or.inl hcmd, by rw [List.take_length]⟩⟩
    case b =>
      obtain ⟨hIa, hBusy⟩ := h
      obtain ⟨cs, hcs, hra⟩ := hIa
      subst hra
      cases cs with
      | nil => exact ⟨⟨[], by simp, rfl⟩, hBusy⟩
      | cons cmd cs2 =>
        have hstep : step Tid.a ⟨some Tid.b, slot, prog (cmd :: cs2), rb⟩ =
            ⟨some Tid.b, slot, prog (cmd :: cs2), rb⟩ := by
          simp [step, Sys.rem, Sys.setRem, execInstr, prog, sendProg]
        rw [hstep]
        exact ⟨⟨cmd :: cs2, hcs, rfl⟩, hBusy⟩

theorem inv_step_b (cmdsA cmdsB : List String) (s : Sys)
    (h : ChanInv cmdsA cmdsB s) : ChanInv cmdsA cmdsB (step Tid.b s) := by
  obtain ⟨lock, slot, ra, rb⟩ := s
  rcases lock with _ | tl
  · obtain ⟨hIa, ⟨cs, hcs, hrb⟩, hslot⟩ := h
    subst hrb
    cases cs with
    | nil => exact ⟨hIa, ⟨[], by simp, rfl⟩, hslot⟩
    | cons cmd cs2 =>
      have hstep : step Tid.b ⟨none, slot, ra, prog (cmd :: cs2)⟩ =
          ⟨some Tid.b, slot, ra,
            Instr.truncate ::
              (cmd.data.map Instr.writeChar ++ [Instr.release]) ++ prog cs2⟩ := by
        simp [step, Sys.rem, Sys.setRem, execInstr, prog, sendProg]
      rw [hstep]
      exact ⟨hIa, ⟨cmd, cs2, hcs cmd (by simp),
        fun c hc => hcs c (by simp [hc]), Or.inl ⟨rfl, hslot⟩⟩⟩
  · rcases tl
    case b =>
      obtain ⟨hIa, ⟨cmd, cs, hcmd, hcs, hphase⟩⟩ := h
      rcases hphase with ⟨hrb, hslot⟩ | ⟨k, hk, hrb, hslot⟩
      · subst hrb
        have hstep : step Tid.b ⟨some Tid.b, slot, ra,
            Instr.truncate ::
              (cmd.data.map Instr.writeChar ++ [Instr.release]) ++ prog cs⟩ =
            ⟨some Tid.b, [], ra,
              (cmd.data.map Instr.writeChar ++ [Instr.release]) ++ prog cs⟩ := by
          simp [step, Sys.rem, Sys.setRem, execInstr]
        rw [hstep]
        exact ⟨hIa, ⟨cmd, cs, hcmd, hcs,
          Or.inr ⟨0, Nat.zero_le _, by simp, by simp⟩⟩⟩
      · subst hrb
        subst hslot
        rcases Nat.lt_or_ge k cmd.data.length with hlt | hge
        · have hrb2 : (cmd.data.drop k).map Instr.writeChar ++ [Instr.release]
              ++ prog cs =
              Instr.writeChar cmd.data[k] ::
                ((cmd.data.drop (k+1)).map Instr.writeChar ++ [Instr.release]
                  ++ prog cs) := by
            rw [List.drop_eq_getElem_cons hlt]
            exact rfl
          rw [hrb2]
          have hstep : step Tid.b ⟨some Tid.b, cmd.data.take k, ra,
              Instr.writeChar cmd.data[k] ::
                ((cmd.data.drop (k+1)).map Instr.writeChar ++ [Instr.release]
                  ++ prog cs)⟩ =
              ⟨some Tid.b, cmd.data.take k ++ [cmd.data[k]], ra,
                (cmd.data.drop (k+1)).map Instr.writeChar ++ [Instr.release]
                  ++ prog cs⟩ := rfl
          rw [hstep, take_append_getElem cmd.data k hlt]
          exact ⟨hIa, ⟨cmd, cs, hcmd, hcs, Or.inr ⟨k+1, hlt, rfl, rfl⟩⟩⟩
        · have hkl : k = cmd.data.length := Nat.le_antisymm hk hge
          subst hkl
          have hrb2 : (cmd.data.drop cmd.data.length).map Instr.writeChar
              ++ [Instr.release] ++ prog cs = Instr.release :: prog cs := by
            rw [List.drop_length]
            exact rfl
          rw [hrb2]
          have hstep : step Tid.b ⟨some Tid.b,
              cmd.data.take cmd.data.length, ra, Instr.release :: prog cs⟩ =
              ⟨none, cmd.data.take cmd.data.length, ra, prog cs⟩ := rfl
          rw [hstep]
          exact ⟨hIa, ⟨cs, hcs, rfl⟩,
            Or.inr ⟨cmd, Or.inr hcmd, by rw [List.take_length]⟩⟩
    case a =>
      obtain ⟨hBusy, hIb⟩ := h
      obtain ⟨cs, hcs, hrb⟩ := hIb
      subst hrb
      cases cs with
      | nil => exact ⟨hBusy, ⟨[], by simp, rfl⟩⟩
      | cons cmd cs2 =>
        have hstep : step Tid.b ⟨some Tid.a, slot, ra, prog (cmd :: cs2)⟩ =
            ⟨some Tid.a, slot, ra, prog (cmd :: cs2)⟩ := by
          simp [step, Sys.rem, Sys.setRem, execInstr, prog, sendProg]
        rw [hstep]
        exact ⟨hBusy, ⟨cmd :: cs2, hcs, rfl⟩⟩

theorem inv_step (cmdsA cmdsB : List String) (t : Tid) (s : Sys)
    (h : ChanInv cmdsA cmdsB s) : ChanInv cmdsA cmdsB (step t s) := by
  cases t
  · exact inv_step_a cmdsA cmdsB s h
  · exact inv_step_b cmdsA cmdsB s h

theorem inv_runSched (cmdsA cmdsB : List String) (sched : List Tid) (s : Sys)
    (h : ChanInv cmdsA cmdsB s) : ChanInv cmdsA cmdsB (runSched s sched) := by
  induction sched generalizing s with
  | nil => exact h
  | cons t ts ih => exact ih (step t s) (inv_step cmdsA cmdsB t s h)

theorem inv_init (cmdsA cmdsB : List String) :
    ChanInv cmdsA cmdsB (initSys cmdsA cmdsB) :=
  ⟨⟨cmdsA, fun _ hc => hc, rfl⟩, ⟨cmdsB, fun _ hc => hc, rfl⟩, Or.inl rfl⟩

/-- C5: writers are serialized by the controller's lock — in every
interleaving of the tick loop's sends (thread a) and the audio callback's
sends (thread b), the command file always holds a (possibly complete)
prefix of a single writer's command, never characters of two different
writes interleaved; and whenever no writer is inside its critical section
the file holds exactly one complete command (or is still empty), so every
command the external poller can observe at a quiescent point is one
complete, valid command string. -/
theorem c5_mutual_exclusion (cmdsA cmdsB : List String) (sched : List Tid) :
    ((runSched (initSys cmdsA cmdsB) sched).slot = [] ∨
      ∃ c, (c ∈ cmdsA ∨ c ∈ cmdsB) ∧ ∃ k,
        (runSched (initSys cmdsA cmdsB) sched).slot = c.data.take k) ∧
    ((runSched (initSys cmdsA cmdsB) sched).lock = none →
      SlotOK cmdsA cmdsB (runSched (initSys cmdsA cmdsB) sched).slot) := by
  have hInv : ChanInv cmdsA cmdsB (runSched (initSys cmdsA cmdsB) sched) :=
    inv_runSched cmdsA cmdsB sched (initSys cmdsA cmdsB)
      (inv_init cmdsA cmdsB)
  revert hInv
  generalize runSched (initSys cmdsA cmdsB) sched = s
  intro hInv
  obtain ⟨lock, slot, ra, rb⟩ := s
  rcases lock with _ | tl
  · obtain ⟨_, _, hslot⟩ := hInv
    refine ⟨?_, fun _ => hslot⟩
    rcases hslot with h0 | ⟨c, hc, he⟩
    · exact Or.inl h0
    · exact Or.inr ⟨c, hc, c.data.length, by rw [List.take_length]; exact he⟩
  · rcases tl
    case a =>
      obtain ⟨⟨cmd, cs, hcmd, _, hphase⟩, _⟩ := hInv
      refine ⟨?_, fun hl => by simp at hl⟩
      rcases hphase with ⟨_, hslot⟩ | ⟨k, _, _, hslot⟩
      · rcases hslot with h0 | ⟨c, hc, he⟩
        · exact Or.inl h0
        · exact Or.inr ⟨c, hc, c.data.length, by rw [List.take_length]; exact he⟩
      · exact Or.inr ⟨cmd, Or.inl hcmd, k, hslot⟩
    case b =>
      obtain ⟨_, ⟨cmd, cs, hcmd, _, hphase⟩⟩ := hInv
      refine ⟨?_, fun hl => by simp at hl⟩
      rcases hphase with ⟨_, hslot⟩ | ⟨k, _, _, hslot⟩
      · rcases hslot with h0 | ⟨c, hc, he⟩
        · exact Or.inl h0
        · exact Or.inr ⟨c, hc, c.data.length, by rw [List.take_length]; exact he⟩
      · exact Or.inr ⟨cmd, Or.inr hcmd, k, hslot⟩

/-- C5 witness: a concrete interleaving of a state write by the tick loop
and an amplitude write by the audio callback. -/
theorem c5_mutual_exclusion_witness :
    ((runSched (initSys ["state 2"] ["amp 200"])
        [Tid.a, Tid.b, Tid.a, Tid.b]).slot = [] ∨
      ∃ c, (c ∈ ["state 2"] ∨ c ∈ ["amp 200"]) ∧ ∃ k,
        (runSched (initSys ["state 2"] ["amp 200"])
          [Tid.a, Tid.b, Tid.a, Tid.b]).slot = c.data.take k) ∧
    ((runSched (initSys ["state 2"] ["amp 200"])
        [Tid.a, Tid.b, Tid.a, Tid.b]).lock = none →
      SlotOK ["state 2"] ["amp 200"]
        (runSched (initSys ["state 2"] ["amp 200"])
          [Tid.a, Tid.b, Tid.a, Tid.b]).slot) :=
  c5_mutual_exclusion ["state 2"] ["amp 200"] [Tid.a, Tid.b, Tid.a, Tid.b]

